import Mathlib

/-!
# Banner registry (server.js) — shallow embedding

The service keeps three Redis structures:
* `ACTIVE_BANNERS_KEY`  — a hash mapping banner URL to its day code;
* `PRIORITY_BANNERS_KEY` — a sorted set mapping banner URL to its priority score;
* `DISABLED_BANNERS_KEY` — a set of disabled banner URLs.

We model the hash and the sorted set as association lists in insertion
order (Redis hashes keep fields; the sorted set is read back through
`ZREVRANGE`, which orders by descending score and, for equal scores, by
reverse lexicographic member order — we model that read as a sort).
The plain set is a duplicate-free list.

HTTP handlers become pure functions from request data and a `RegState`
to a `Resp × RegState`.  The Cloudinary collaborator is abstracted by
its observable outcome: the upload either fails or yields the secure
URL; `destroy` yields the `result` string the handler inspects.
-/

namespace Banner

/-! ## Association-list model of the Redis hash / sorted set -/

/-- Keys (fields / members) of an association list. -/
def akeys {α : Type} (h : List (String × α)) : List String :=
  h.map Prod.fst

/-- `HGET` / score lookup: first binding of the key. -/
def alookup {α : Type} (h : List (String × α)) (k : String) : Option α :=
  match h with
  | [] => none
  | p :: t => if p.1 = k then some p.2 else alookup t k

/-- `HSET` / `ZADD`: replace the value in place when the field exists,
otherwise append the new binding. -/
def aset {α : Type} (h : List (String × α)) (k : String) (v : α) :
    List (String × α) :=
  if k ∈ akeys h then h.map (fun p => if p.1 = k then (k, v) else p)
  else h ++ [(k, v)]

/-- `HDEL` / `ZREM`: the number of removed fields and the remaining list. -/
def adel {α : Type} (h : List (String × α)) (k : String) :
    Nat × List (String × α) :=
  ((if k ∈ akeys h then 1 else 0), h.filter (fun p => p.1 ≠ k))

/-! ## Plain-set model (`SADD` / `SREM` / `SISMEMBER`) -/

/-- `SADD` (single member). -/
def sadd (l : List String) (x : String) : List String :=
  if x ∈ l then l else l ++ [x]

/-- `SREM` (single member): removed count and remaining set. -/
def srem (l : List String) (x : String) : Nat × List String :=
  ((if x ∈ l then 1 else 0), l.filter (fun y => y ≠ x))

/-! ## Byte-wise (codepoint) lexicographic order on strings

Redis orders equal-score members of a sorted set lexicographically by
member bytes; `ZREVRANGE` reverses that.  We use an executable
codepoint comparison (equal to byte order on UTF-8). -/

/-- Strict lexicographic order on character lists. -/
def lexLt : List Char → List Char → Bool
  | [], [] => false
  | [], _ :: _ => true
  | _ :: _, [] => false
  | a :: as, b :: bs =>
    if a.toNat < b.toNat then true
    else if b.toNat < a.toNat then false
    else lexLt as bs

/-- Strict lexicographic order on strings. -/
def strLt (a b : String) : Bool :=
  lexLt a.data b.data

/-! ## Request values -/

/-- The observable outcomes of running JavaScript `parseInt` on the
`priority` field of a request body: the field can be absent (or another
falsy value), can fail to parse (`NaN`), or parses to an integer. -/
inductive PVal : Type where
  | absent : PVal
  | nan : PVal
  | int : Int → PVal
deriving DecidableEq, Repr

/-- `parseInt(priority || '0', 10)` — an absent/falsy field defaults to
`'0'`; `none` stands for `NaN`. -/
def parseWithDefault : PVal → Option Int
  | .absent => some 0
  | .nan => none
  | .int n => some n

/-- `parseInt(priority, 10)` with no fallback — an absent field gives
`NaN` (`none`). -/
def parseStrict : PVal → Option Int
  | .absent => none
  | .nan => none
  | .int n => some n

/-- `toUpperCase()` (ASCII), written over the character list. -/
def toUpperStr (s : String) : String :=
  ⟨s.data.map Char.toUpper⟩

/-- `day ? day.toUpperCase() : 'ALL'` — an absent or empty (falsy) day
defaults to `ALL`, otherwise the string is upper-cased. -/
def normDay : Option String → String
  | none => "ALL"
  | some d => if d = "" then "ALL" else toUpperStr d

/-- `Object.values(DAYS_MAP)` in key order 0..6. -/
def weekdayCodes : List String :=
  ["SUN", "MON", "TUE", "WED", "THU", "FRI", "SAT"]

/-- `[...Object.values(DAYS_MAP), 'ALL']`. -/
def validDays : List String :=
  weekdayCodes ++ ["ALL"]

/-! ## Registry state and responses -/

/-- The three Redis structures of the registry. -/
structure RegState : Type where
  activeDay : List (String × String)
  priorityZ : List (String × Int)
  disabled : List String
deriving DecidableEq, Repr

/-- The empty registry. -/
def emptyState : RegState := ⟨[], [], []⟩

/-- An HTTP response: status code and the handler's message string. -/
structure Resp : Type where
  status : Nat
  msg : String
deriving DecidableEq, Repr

/-! ## `extractPublicIdFromUrl` -/

/-- The characters of `s` strictly before its last dot; `none` when `s`
has no dot. -/
def upToLastDot : List Char → Option (List Char)
  | [] => none
  | c :: cs =>
    match upToLastDot cs with
    | some r => some (c :: r)
    | none => if c = '.' then some [] else none

/-- `s.substring(0, s.lastIndexOf('.'))` — everything before the last
dot; when there is no dot, `lastIndexOf` is `-1` and JavaScript
`substring` clamps it to `0`, giving the empty string. -/
def stripExt (s : String) : String :=
  match upToLastDot s.data with
  | some l => ⟨l⟩
  | none => ""

/-- The Cloudinary folder constant `CLOUDINARY_FOLDER`. -/
def CLOUDINARY_FOLDER : String := "banners_folder"

/-- Helper for `url.split('/')`: the accumulator holds the current
segment reversed. -/
def splitSlashAux : List Char → List Char → List String
  | [], acc => [⟨acc.reverse⟩]
  | c :: cs, acc =>
    if c = '/' then ⟨acc.reverse⟩ :: splitSlashAux cs []
    else splitSlashAux cs (c :: acc)

/-- `url.split('/')` — JavaScript semantics: the empty string yields
`[""]`, adjacent separators yield empty segments. -/
def splitSlash (url : String) : List String :=
  splitSlashAux url.data []

/-- `extractPublicIdFromUrl`: split on `/`; fail when fewer than two
segments; strip the extension from the last segment; require the
second-to-last segment to equal the expected folder; return
`folder/fileName`. -/
def extractPublicIdFromUrl (url : String) : Option String :=
  let parts := splitSlash url
  if parts.length < 2 then none
  else
    let fileNameWithExt := parts.getLastD ""
    let fileName := stripExt fileNameWithExt
    let folderName := parts.getD (parts.length - 2) ""
    if folderName ≠ CLOUDINARY_FOLDER then none
    else some (folderName ++ "/" ++ fileName)

/-! ## Route handlers

Each handler takes the request data (and the observable outcome of any
Cloudinary call) plus the current state, and returns the response and
the next state. -/

/-- `POST /api/banners`.  `filePresent` models `req.file`; `day` and
`pv` model the body fields; `upload` models the Cloudinary upload
outcome (`none` = the call threw, `some url` = it returned
`secure_url`). -/
def createBanner (filePresent : Bool) (day : Option String) (pv : PVal)
    (upload : Option String) (s : RegState) : Resp × RegState :=
  if !filePresent then (⟨400, "Nenhum arquivo enviado."⟩, s)
  else
    let d := normDay day
    if d ∉ validDays then
      (⟨400, "Dia inválido. Use: SUN, MON, TUE, WED, THU, FRI, SAT, ALL"⟩, s)
    else
      match parseWithDefault pv with
      | none => (⟨400, "Prioridade inválida. Deve ser um número inteiro não negativo."⟩, s)
      | some p =>
        if p < 0 then
          (⟨400, "Prioridade inválida. Deve ser um número inteiro não negativo."⟩, s)
        else
          match upload with
          | none => (⟨500, "Falha ao fazer upload."⟩, s)
          | some url =>
            (⟨201, "Upload bem-sucedido e banner ativado!"⟩,
             { activeDay := aset s.activeDay url d
               priorityZ := aset s.priorityZ url p
               disabled := s.disabled })

/-- `PUT /api/banners/disable`. -/
def disableBanner (url : String) (s : RegState) : Resp × RegState :=
  if url = "" then (⟨400, "A URL do banner é obrigatória."⟩, s)
  else
    let r1 := adel s.activeDay url
    let r2 := adel s.priorityZ url
    if r1.1 = 0 ∧ r2.1 = 0 then
      if url ∈ s.disabled then
        (⟨404, "Banner já está na lista de desativados."⟩,
         { activeDay := r1.2, priorityZ := r2.2, disabled := s.disabled })
      else
        (⟨404, "Banner não encontrado na lista de ativos."⟩,
         { activeDay := r1.2, priorityZ := r2.2, disabled := s.disabled })
    else
      (⟨200, "Banner desativado com sucesso."⟩,
       { activeDay := r1.2, priorityZ := r2.2, disabled := sadd s.disabled url })

/-- `PUT /api/banners/enable`. -/
def enableBanner (url : String) (day : Option String) (pv : PVal)
    (s : RegState) : Resp × RegState :=
  let targetDay := normDay day
  match parseWithDefault pv with
  | none =>
    (⟨400, "A URL do banner é obrigatória, o dia e a prioridade devem ser válidos."⟩, s)
  | some p =>
    if url = "" ∨ targetDay ∉ validDays ∨ p < 0 then
      (⟨400, "A URL do banner é obrigatória, o dia e a prioridade devem ser válidos."⟩, s)
    else
      let r := srem s.disabled url
      if r.1 = 0 then
        match alookup s.activeDay url with
        | some d =>
          if d ≠ "" then
            (⟨404, "Banner já está ativo."⟩, { s with disabled := r.2 })
          else
            (⟨404, "Banner não encontrado na lista de desativados."⟩,
             { s with disabled := r.2 })
        | none =>
          (⟨404, "Banner não encontrado na lista de desativados."⟩,
           { s with disabled := r.2 })
      else
        (⟨200, "Banner reativado com sucesso."⟩,
         { activeDay := aset s.activeDay url targetDay
           priorityZ := aset s.priorityZ url p
           disabled := r.2 })

/-- `PUT /api/banners/update-day`. -/
def updateDayBanner (url : String) (day : Option String) (s : RegState) :
    Resp × RegState :=
  let targetDay := normDay day
  if url = "" ∨ targetDay ∉ validDays then
    (⟨400, "A URL do banner é obrigatória e o dia deve ser válido."⟩, s)
  else
    match alookup s.activeDay url with
    | some d =>
      if d = "" then
        (⟨404, "Banner não encontrado na lista de ativos."⟩, s)
      else
        (⟨200, "Dia de exibição atualizado com sucesso."⟩,
         { s with activeDay := aset s.activeDay url targetDay })
    | none => (⟨404, "Banner não encontrado na lista de ativos."⟩, s)

/-- `PUT /api/banners/update-priority` — note the bare
`parseInt(priority, 10)` with no `|| '0'` fallback. -/
def updatePriorityBanner (url : String) (pv : PVal) (s : RegState) :
    Resp × RegState :=
  match parseStrict pv with
  | none =>
    (⟨400, "A URL do banner e a prioridade (número não negativo) são obrigatórias."⟩, s)
  | some p =>
    if url = "" ∨ p < 0 then
      (⟨400, "A URL do banner e a prioridade (número não negativo) são obrigatórias."⟩, s)
    else
      match alookup s.activeDay url with
      | some d =>
        if d = "" then
          (⟨404, "Banner não encontrado na lista de ativos."⟩, s)
        else
          (⟨200, "Prioridade de exibição atualizada com sucesso."⟩,
           { s with priorityZ := aset s.priorityZ url p })
      | none => (⟨404, "Banner não encontrado na lista de ativos."⟩, s)

/-- `DELETE /api/banners`.  `mediaResult` models the `result` field of
`cloudinary.uploader.destroy` (`"ok"`, `"not found"`, or any error
string). -/
def deleteBanner (url : String) (mediaResult : String) (s : RegState) :
    Resp × RegState :=
  if url = "" then (⟨400, "A URL do banner é obrigatória para a exclusão."⟩, s)
  else
    let r1 := adel s.activeDay url
    let r2 := adel s.priorityZ url
    let r3 := srem s.disabled url
    let s' : RegState := ⟨r1.2, r2.2, r3.2⟩
    if r1.1 + r2.1 + r3.1 = 0 then
      (⟨404, "Banner não encontrado nos registros do Redis."⟩, s')
    else
      match extractPublicIdFromUrl url with
      | none =>
        (⟨200, "Banner removido do Redis, mas falhou ao extrair o ID para exclusão no Cloudinary."⟩, s')
      | some _ =>
        if mediaResult = "not found" then
          (⟨200, "Banner excluído com sucesso."⟩, s')
        else if mediaResult ≠ "ok" then
          (⟨200, "Banner removido do Redis, mas houve um erro na exclusão do Cloudinary."⟩, s')
        else (⟨200, "Banner excluído com sucesso."⟩, s')

/-! ## Read models (`GET` routes) -/

/-- The `ZREVRANGE ... WITHSCORES` order: higher score first; equal
scores in reverse lexicographic member order. -/
def ZRel (a b : String × Int) : Prop :=
  b.2 < a.2 ∨ (a.2 = b.2 ∧ strLt a.1 b.1 = false)

instance : DecidableRel ZRel := fun a b =>
  inferInstanceAs (Decidable (b.2 < a.2 ∨ (a.2 = b.2 ∧ strLt a.1 b.1 = false)))

/-- `ZREVRANGE key 0 -1 WITHSCORES`: all members with their scores,
from the highest score to the lowest. -/
def zrevrangeWithScores (z : List (String × Int)) : List (String × Int) :=
  z.insertionSort ZRel

/-- `getActiveBannersWithPriority`. -/
def getActiveBannersWithPriority (s : RegState) : List (String × Int) :=
  zrevrangeWithScores s.priorityZ

/-- `getActiveBannersWithDay` (the entries of the active hash). -/
def getActiveBannersWithDay (s : RegState) : List (String × String) :=
  s.activeDay

/-- The filter of `GET /api/banners`:
`dayMap[url] && (dayMap[url] === 'ALL' || dayMap[url] === todayKey)` —
the first conjunct is JavaScript truthiness, so an empty-string day is
rejected as well as a missing one. -/
def dayMatches (h : List (String × String)) (todayKey url : String) : Bool :=
  match alookup h url with
  | some d => d ≠ "" && (d == "ALL" || d == todayKey)
  | none => false

/-- The `(url, priority)` rows of `GET /api/banners` before projecting
to URLs: the priority-ordered members filtered by today's day rule. -/
def listActiveTodayPairs (todayKey : String) (s : RegState) :
    List (String × Int) :=
  (getActiveBannersWithPriority s).filter
    (fun b => dayMatches s.activeDay todayKey b.1)

/-- `GET /api/banners`: the URLs active for `todayKey`, in the order
produced by the handler. -/
def listActiveForToday (todayKey : String) (s : RegState) : List String :=
  (listActiveTodayPairs todayKey s).map Prod.fst

/-- The dashboard sort of `GET /api/banners/all`
(`(a, b) => b.priority - a.priority`, a stable sort). -/
def ARel (a b : String × String × Int) : Prop :=
  b.2.2 ≤ a.2.2

instance : DecidableRel ARel := fun a b =>
  inferInstanceAs (Decidable (b.2.2 ≤ a.2.2))

/-- `GET /api/banners/all`: every active-hash entry with its priority
(the `reduce` over the range output keeps the last binding; a member
missing from the sorted set gets priority 0), sorted by descending
priority. -/
def listAllActive (s : RegState) : List (String × String × Int) :=
  ((getActiveBannersWithDay s).map
    (fun p =>
      (p.1, p.2,
        ((alookup (zrevrangeWithScores s.priorityZ).reverse p.1).getD 0)))).insertionSort
    ARel

/-- `GET /api/banners/disabled`. -/
def listDisabled (s : RegState) : List String :=
  s.disabled

/-! ## Operation traces and invariants -/

/-- One state-mutating request to the registry, together with the
observable outcome of any Cloudinary call it makes. -/
inductive Op : Type where
  | createOp (filePresent : Bool) (day : Option String) (pv : PVal)
      (upload : Option String) : Op
  | disableOp (url : String) : Op
  | enableOp (url : String) (day : Option String) (pv : PVal) : Op
  | updateDayOp (url : String) (day : Option String) : Op
  | updatePriorityOp (url : String) (pv : PVal) : Op
  | deleteOp (url : String) (mediaResult : String) : Op
deriving DecidableEq, Repr

/-- The state after serving one request. -/
def applyOp (op : Op) (s : RegState) : RegState :=
  match op with
  | .createOp fp day pv up => (createBanner fp day pv up s).2
  | .disableOp url => (disableBanner url s).2
  | .enableOp url day pv => (enableBanner url day pv s).2
  | .updateDayOp url day => (updateDayBanner url day s).2
  | .updatePriorityOp url pv => (updatePriorityBanner url pv s).2
  | .deleteOp url m => (deleteBanner url m s).2

/-- The state after serving a sequence of requests. -/
def runOps (s : RegState) : List Op → RegState
  | [] => s
  | op :: t => runOps (applyOp op s) t

/-- A create is fresh for `s` when the URL the Media Store hands back is
not currently a member of the disabled set (a Media Store that returns
fresh URLs satisfies this trivially); every other request is
unrestricted. -/
def opOk (op : Op) (s : RegState) : Bool :=
  match op with
  | .createOp _ _ _ (some u) => !(decide (u ∈ s.disabled))
  | _ => true

/-- A trace is admissible from `s` when each create in it is fresh for
the state it runs against. -/
def okTrace (s : RegState) : List Op → Bool
  | [] => true
  | op :: t => opOk op s && okTrace (applyOp op s) t

/-- The invariant of claim C1: no URL is both a field of the active
hash and a member of the disabled set. -/
def disjointInv (s : RegState) : Prop :=
  ∀ u ∈ akeys s.activeDay, u ∉ s.disabled

/-- Every field of the active hash is also a member of the priority
sorted set (maintained by every route, unconditionally). -/
def hashSubZ (s : RegState) : Prop :=
  ∀ u ∈ akeys s.activeDay, u ∈ akeys s.priorityZ

/-! ## Lemmas about the store primitives -/

theorem alookup_some_mem {α : Type} {h : List (String × α)} {k : String}
    {v : α} (hl : alookup h k = some v) : k ∈ akeys h := by
  induction h with
  | nil => simp [alookup] at hl
  | cons p t ih =>
    simp only [alookup] at hl
    by_cases hp : p.1 = k
    · simp [akeys, hp]
    · simp only [if_neg hp] at hl
      simp [akeys] at ih ⊢
      exact Or.inr (by simpa [akeys] using ih hl)

theorem mem_akeys_exists {α : Type} {h : List (String × α)} {k : String}
    (hk : k ∈ akeys h) : ∃ v, alookup h k = some v := by
  induction h with
  | nil => simp [akeys] at hk
  | cons p t ih =>
    simp only [akeys, List.map_cons, List.mem_cons] at hk
    by_cases hp : p.1 = k
    · exact ⟨p.2, by simp [alookup, hp]⟩
    · have : k ∈ akeys t := by
        rcases hk with hk | hk
        · exact absurd hk.symm hp
        · simpa [akeys] using hk
      rcases ih this with ⟨v, hv⟩
      exact ⟨v, by simp [alookup, hp, hv]⟩

theorem alookup_aset_self {α : Type} (h : List (String × α)) (k : String)
    (v : α) : alookup (aset h k v) k = some v := by
  unfold aset
  by_cases hk : k ∈ akeys h
  · simp only [if_pos hk]
    induction h with
    | nil => simp [akeys] at hk
    | cons p t ih =>
      simp only [akeys, List.map_cons, List.mem_cons] at hk
      by_cases hp : p.1 = k
      · simp [alookup, hp]
      · simp only [List.map_cons, alookup, if_neg hp]
        have : k ∈ akeys t := by
          rcases hk with hk | hk
          · exact absurd hk.symm hp
          · simpa [akeys] using hk
        simpa [alookup, hp] using ih this
  · simp only [if_neg hk]
    induction h with
    | nil => simp [alookup]
    | cons p t ih =>
      have hp : p.1 ≠ k := by
        intro hpk
        exact hk (by simp [akeys, hpk])
      have ht : k ∉ akeys t := by
        intro hkt
        exact hk (by simp [akeys]; right; simpa [akeys] using hkt)
      simpa [alookup, hp] using ih ht

theorem akeys_aset {α : Type} (h : List (String × α)) (k : String) (v : α) :
    akeys (aset h k v) = if k ∈ akeys h then akeys h else akeys h ++ [k] := by
  unfold aset akeys
  by_cases hk : k ∈ List.map Prod.fst h
  · simp only [if_pos hk]
    rw [List.map_map]
    apply List.map_congr_left
    intro p _
    by_cases hp : p.1 = k
    · simp [hp]
    · simp [hp]
  · simp [if_neg hk]

theorem mem_akeys_aset {α : Type} {h : List (String × α)} {k u : String}
    {v : α} : u ∈ akeys (aset h k v) ↔ u ∈ akeys h ∨ u = k := by
  rw [akeys_aset]
  by_cases hk : k ∈ akeys h
  · simp only [if_pos hk]
    constructor
    · exact Or.inl
    · rintro (hu | rfl)
      · exact hu
      · exact hk
  · simp [if_neg hk]

theorem adel_fst {α : Type} (h : List (String × α)) (k : String) :
    (adel h k).1 = if k ∈ akeys h then 1 else 0 := rfl

theorem mem_akeys_adel {α : Type} {h : List (String × α)} {k u : String} :
    u ∈ akeys (adel h k).2 ↔ u ∈ akeys h ∧ u ≠ k := by
  simp only [adel, akeys, List.mem_map, List.mem_filter]
  constructor
  · rintro ⟨p, ⟨hp, hpk⟩, rfl⟩
    exact ⟨⟨p, hp, rfl⟩, by simpa using hpk⟩
  · rintro ⟨⟨p, hp, rfl⟩, huk⟩
    exact ⟨p, ⟨hp, by simpa using huk⟩, rfl⟩

theorem adel_of_not_mem {α : Type} {h : List (String × α)} {k : String}
    (hk : k ∉ akeys h) : (adel h k).2 = h := by
  simp only [adel]
  apply List.filter_eq_self.mpr
  intro p hp
  have : p.1 ≠ k := by
    intro hpk
    exact hk (by unfold akeys; exact List.mem_map.mpr ⟨p, hp, hpk⟩)
  simpa using this

theorem mem_sadd {l : List String} {x u : String} :
    u ∈ sadd l x ↔ u ∈ l ∨ u = x := by
  unfold sadd
  by_cases hx : x ∈ l
  · simp only [if_pos hx]
    constructor
    · exact Or.inl
    · rintro (h | rfl)
      · exact h
      · exact hx
  · simp [if_neg hx]

theorem srem_fst (l : List String) (x : String) :
    (srem l x).1 = if x ∈ l then 1 else 0 := rfl

theorem mem_srem {l : List String} {x u : String} :
    u ∈ (srem l x).2 ↔ u ∈ l ∧ u ≠ x := by
  simp [srem, List.mem_filter]

theorem srem_of_not_mem {l : List String} {x : String} (hx : x ∉ l) :
    (srem l x).2 = l := by
  simp only [srem]
  apply List.filter_eq_self.mpr
  intro a ha
  have : a ≠ x := fun h => hx (h ▸ ha)
  simpa using this

/-! ## The sorted-set order is total and transitive -/

theorem lexLt_asymm : ∀ a b : List Char,
    lexLt a b = true → lexLt b a = false
  | [], [] => by simp [lexLt]
  | [], _ :: _ => by simp [lexLt]
  | _ :: _, [] => by simp [lexLt]
  | a :: as, b :: bs => by
    simp only [lexLt]
    by_cases hab : a.toNat < b.toNat
    · intro _
      have h1 : ¬b.toNat < a.toNat := by omega
      simp [h1, hab]
    · by_cases hba : b.toNat < a.toNat
      · simp [hab, hba]
      · simp only [if_neg hab, if_neg hba]
        exact lexLt_asymm as bs

theorem lexLt_nil_right : ∀ a : List Char, lexLt a [] = false
  | [] => rfl
  | _ :: _ => rfl

theorem lexLt_not_trans : ∀ a b c : List Char,
    lexLt a b = false → lexLt b c = false → lexLt a c = false := by
  intro a
  induction a with
  | nil =>
    intro b c hab hbc
    cases c with
    | nil => exact lexLt_nil_right []
    | cons z zs =>
      cases b with
      | nil => exact hbc
      | cons y ys => simp [lexLt] at hab
  | cons x xs ih =>
    intro b c hab hbc
    cases c with
    | nil => exact lexLt_nil_right (x :: xs)
    | cons z zs =>
      cases b with
      | nil => simp [lexLt] at hbc
      | cons y ys =>
        simp only [lexLt] at hab hbc ⊢
        by_cases hxy : x.toNat < y.toNat
        · simp [hxy] at hab
        · by_cases hyz : y.toNat < z.toNat
          · simp [hyz] at hbc
          · simp only [if_neg hxy] at hab
            simp only [if_neg hyz] at hbc
            by_cases hyx : y.toNat < x.toNat
            · have h1 : ¬x.toNat < z.toNat := by omega
              have h2 : z.toNat < x.toNat := by omega
              simp [h1, h2]
            · simp only [if_neg hyx] at hab
              by_cases hzy : z.toNat < y.toNat
              · have h1 : ¬x.toNat < z.toNat := by omega
                have h2 : z.toNat < x.toNat := by omega
                simp [h1, h2]
              · simp only [if_neg hzy] at hbc
                have h1 : ¬x.toNat < z.toNat := by omega
                have h2 : ¬z.toNat < x.toNat := by omega
                simp only [if_neg h1, if_neg h2]
                exact ih ys zs hab hbc

theorem strLt_asymm {a b : String} (h : strLt a b = true) :
    strLt b a = false :=
  lexLt_asymm a.data b.data h

theorem strLt_not_trans {a b c : String} (hab : strLt a b = false)
    (hbc : strLt b c = false) : strLt a c = false :=
  lexLt_not_trans a.data b.data c.data hab hbc

instance : IsTotal (String × Int) ZRel := by
  constructor
  intro a b
  rcases lt_trichotomy a.2 b.2 with h | h | h
  · exact Or.inr (Or.inl h)
  · by_cases hs : strLt a.1 b.1 = true
    · exact Or.inr (Or.inr ⟨h.symm, strLt_asymm hs⟩)
    · exact Or.inl (Or.inr ⟨h, Bool.eq_false_iff.mpr hs⟩)
  · exact Or.inl (Or.inl h)

instance : IsTrans (String × Int) ZRel := by
  constructor
  intro a b c hab hbc
  rcases hab with hab | ⟨hab, sab⟩
  · rcases hbc with hbc | ⟨hbc, _⟩
    · exact Or.inl (lt_trans hbc hab)
    · exact Or.inl (hbc ▸ hab)
  · rcases hbc with hbc | ⟨hbc, sbc⟩
    · exact Or.inl (hab ▸ hbc)
    · exact Or.inr ⟨hab.trans hbc, strLt_not_trans sab sbc⟩

/-! ## Lemmas about the read models -/

theorem dayMatches_iff {h : List (String × String)} {td u : String} :
    dayMatches h td u = true ↔
      ∃ d, alookup h u = some d ∧ d ≠ "" ∧ (d = "ALL" ∨ d = td) := by
  unfold dayMatches
  cases hl : alookup h u with
  | none => simp
  | some d =>
    simp only [Bool.and_eq_true, Bool.or_eq_true, beq_iff_eq, ne_eq,
      decide_not, Bool.not_eq_true', decide_eq_false_iff_not]
    constructor
    · rintro ⟨hne, hor⟩
      exact ⟨d, rfl, hne, hor⟩
    · rintro ⟨d', hd', hne, hor⟩
      cases hd'
      exact ⟨hne, hor⟩

theorem mem_akeys_iff_exists_pair {α : Type} {z : List (String × α)}
    {u : String} : u ∈ akeys z ↔ ∃ p, p ∈ z ∧ p.1 = u := by
  unfold akeys
  exact List.mem_map

theorem mem_listActiveForToday_iff {s : RegState} {td u : String}
    (hz : hashSubZ s) (htd : td ∈ weekdayCodes) :
    u ∈ listActiveForToday td s ↔
      ∃ d, alookup s.activeDay u = some d ∧ (d = "ALL" ∨ d = td) := by
  unfold listActiveForToday listActiveTodayPairs getActiveBannersWithPriority
    zrevrangeWithScores
  constructor
  · intro hu
    rcases List.mem_map.mp hu with ⟨p, hp, rfl⟩
    have hf := (List.mem_filter.mp hp).2
    rcases dayMatches_iff.mp hf with ⟨d, hd, _, hor⟩
    exact ⟨d, hd, hor⟩
  · rintro ⟨d, hd, hor⟩
    have hne : d ≠ "" := by
      rcases hor with rfl | rfl
      · decide
      · intro he
        rw [he] at htd
        revert htd
        decide
    have hu : u ∈ akeys s.activeDay := alookup_some_mem hd
    have huz : u ∈ akeys s.priorityZ := hz u hu
    rcases mem_akeys_iff_exists_pair.mp huz with ⟨p, hpz, hpu⟩
    apply List.mem_map.mpr
    refine ⟨p, List.mem_filter.mpr ⟨?_, ?_⟩, hpu⟩
    · exact (List.mem_insertionSort ZRel).mpr hpz
    · rw [hpu]
      exact dayMatches_iff.mpr ⟨d, hd, hne, hor⟩

theorem listActiveForToday_not_disabled {s : RegState} {td u : String}
    (hdisj : disjointInv s) (hu : u ∈ listActiveForToday td s) :
    u ∉ s.disabled := by
  unfold listActiveForToday listActiveTodayPairs at hu
  rcases List.mem_map.mp hu with ⟨p, hp, rfl⟩
  have hf := (List.mem_filter.mp hp).2
  rcases dayMatches_iff.mp hf with ⟨d, hd, _, _⟩
  exact hdisj p.1 (alookup_some_mem hd)

theorem listActiveTodayPairs_sorted (td : String) (s : RegState) :
    List.Pairwise ZRel (listActiveTodayPairs td s) := by
  unfold listActiveTodayPairs getActiveBannersWithPriority zrevrangeWithScores
  exact List.Pairwise.filter _ (List.sorted_insertionSort ZRel s.priorityZ)

theorem mem_map_fst_listAllActive {s : RegState} {u : String} :
    u ∈ (listAllActive s).map (fun b => b.1) ↔ u ∈ akeys s.activeDay := by
  unfold listAllActive getActiveBannersWithDay
  constructor
  · intro hu
    rcases List.mem_map.mp hu with ⟨t, ht, rfl⟩
    have ht2 := (List.mem_insertionSort ARel).mp ht
    rcases List.mem_map.mp ht2 with ⟨p, hp, rfl⟩
    exact mem_akeys_iff_exists_pair.mpr ⟨p, hp, rfl⟩
  · intro hu
    rcases mem_akeys_iff_exists_pair.mp hu with ⟨p, hp, rfl⟩
    apply List.mem_map.mpr
    refine ⟨(p.1, p.2,
      ((alookup (zrevrangeWithScores s.priorityZ).reverse p.1).getD 0)), ?_, rfl⟩
    apply (List.mem_insertionSort ARel).mpr
    exact List.mem_map.mpr ⟨p, hp, rfl⟩

/-! ## State shapes of the mutating handlers -/

theorem createBanner_state (fp : Bool) (day : Option String) (pv : PVal)
    (up : Option String) (s : RegState) :
    (createBanner fp day pv up s).2 = s ∨
      ∃ url p, up = some url ∧
        (createBanner fp day pv up s).2 =
          ⟨aset s.activeDay url (normDay day), aset s.priorityZ url p,
            s.disabled⟩ := by
  simp only [createBanner]
  repeat' split
  all_goals first
    | exact Or.inl rfl
    | exact Or.inr ⟨_, _, rfl, rfl⟩

theorem disableBanner_state (url : String) (s : RegState) :
    (disableBanner url s).2 = s ∨
      ∃ D2, (D2 = s.disabled ∨ D2 = sadd s.disabled url) ∧
        (disableBanner url s).2 =
          ⟨(adel s.activeDay url).2, (adel s.priorityZ url).2, D2⟩ := by
  simp only [disableBanner]
  repeat' split
  all_goals first
    | exact Or.inl rfl
    | exact Or.inr ⟨s.disabled, Or.inl rfl, rfl⟩
    | exact Or.inr ⟨sadd s.disabled url, Or.inr rfl, rfl⟩

theorem enableBanner_state (url : String) (day : Option String) (pv : PVal)
    (s : RegState) :
    (enableBanner url day pv s).2 = s ∨
      (enableBanner url day pv s).2 = { s with disabled := (srem s.disabled url).2 } ∨
      ∃ p, (enableBanner url day pv s).2 =
        ⟨aset s.activeDay url (normDay day), aset s.priorityZ url p,
          (srem s.disabled url).2⟩ := by
  simp only [enableBanner]
  repeat' split
  all_goals first
    | exact Or.inl rfl
    | exact Or.inr (Or.inl rfl)
    | exact Or.inr (Or.inr ⟨_, rfl⟩)

theorem updateDayBanner_state (url : String) (day : Option String)
    (s : RegState) :
    (updateDayBanner url day s).2 = s ∨
      ∃ d0, alookup s.activeDay url = some d0 ∧
        (updateDayBanner url day s).2 =
          { s with activeDay := aset s.activeDay url (normDay day) } := by
  simp only [updateDayBanner]
  repeat' split
  all_goals first
    | exact Or.inl rfl
    | exact Or.inr ⟨_, by assumption, rfl⟩

theorem updatePriorityBanner_state (url : String) (pv : PVal)
    (s : RegState) :
    (updatePriorityBanner url pv s).2 = s ∨
      ∃ p d0, alookup s.activeDay url = some d0 ∧
        (updatePriorityBanner url pv s).2 =
          { s with priorityZ := aset s.priorityZ url p } := by
  simp only [updatePriorityBanner]
  repeat' split
  all_goals first
    | exact Or.inl rfl
    | exact Or.inr ⟨_, _, by assumption, rfl⟩

theorem deleteBanner_state (url m : String) (s : RegState) :
    (deleteBanner url m s).2 = s ∨
      (deleteBanner url m s).2 =
        ⟨(adel s.activeDay url).2, (adel s.priorityZ url).2,
          (srem s.disabled url).2⟩ := by
  simp only [deleteBanner]
  repeat' split
  all_goals first
    | exact Or.inl rfl
    | exact Or.inr rfl

/-! ## Invariant preservation -/

theorem disjointInv_applyOp {op : Op} {s : RegState} (hs : disjointInv s)
    (hok : opOk op s = true) : disjointInv (applyOp op s) := by
  cases op with
  | createOp fp day pv up =>
    rcases createBanner_state fp day pv up s with h | ⟨url, p, hup, h⟩
    · simpa [applyOp, h] using hs
    · intro u hu
      rw [applyOp, h] at hu ⊢
      simp only at hu ⊢
      rcases mem_akeys_aset.mp hu with hu | rfl
      · exact hs u hu
      · subst hup
        simpa [opOk] using hok
  | disableOp url =>
    rcases disableBanner_state url s with h | ⟨D2, hD2, h⟩
    · simpa [applyOp, h] using hs
    · intro u hu
      rw [applyOp, h] at hu ⊢
      simp only at hu ⊢
      rcases mem_akeys_adel.mp hu with ⟨hu, hne⟩
      rcases hD2 with rfl | rfl
      · exact hs u hu
      · intro hmem
        rcases mem_sadd.mp hmem with hmem | rfl
        · exact hs u hu hmem
        · exact hne rfl
  | enableOp url day pv =>
    rcases enableBanner_state url day pv s with h | h | ⟨p, h⟩
    · simpa [applyOp, h] using hs
    · intro u hu
      rw [applyOp, h] at hu ⊢
      simp only at hu ⊢
      intro hmem
      exact hs u hu (mem_srem.mp hmem).1
    · intro u hu
      rw [applyOp, h] at hu ⊢
      simp only at hu ⊢
      intro hmem
      rcases mem_akeys_aset.mp hu with hu | rfl
      · exact hs u hu (mem_srem.mp hmem).1
      · exact (mem_srem.mp hmem).2 rfl
  | updateDayOp url day =>
    rcases updateDayBanner_state url day s with h | ⟨d0, hd0, h⟩
    · simpa [applyOp, h] using hs
    · intro u hu
      rw [applyOp, h] at hu ⊢
      simp only at hu ⊢
      rcases mem_akeys_aset.mp hu with hu | rfl
      · exact hs u hu
      · exact hs u (alookup_some_mem hd0)
  | updatePriorityOp url pv =>
    rcases updatePriorityBanner_state url pv s with h | ⟨p, d0, hd0, h⟩
    · simpa [applyOp, h] using hs
    · intro u hu
      rw [applyOp, h] at hu ⊢
      simpa using hs u hu
  | deleteOp url m =>
    rcases deleteBanner_state url m s with h | h
    · simpa [applyOp, h] using hs
    · intro u hu
      rw [applyOp, h] at hu ⊢
      simp only at hu ⊢
      rcases mem_akeys_adel.mp hu with ⟨hu, _⟩
      intro hmem
      exact hs u hu (mem_srem.mp hmem).1

theorem hashSubZ_applyOp {op : Op} {s : RegState} (hs : hashSubZ s) :
    hashSubZ (applyOp op s) := by
  cases op with
  | createOp fp day pv up =>
    rcases createBanner_state fp day pv up s with h | ⟨url, p, _, h⟩
    · simpa [applyOp, h] using hs
    · intro u hu
      rw [applyOp, h] at hu ⊢
      simp only at hu ⊢
      rcases mem_akeys_aset.mp hu with hu | rfl
      · exact mem_akeys_aset.mpr (Or.inl (hs u hu))
      · exact mem_akeys_aset.mpr (Or.inr rfl)
  | disableOp url =>
    rcases disableBanner_state url s with h | ⟨D2, _, h⟩
    · simpa [applyOp, h] using hs
    · intro u hu
      rw [applyOp, h] at hu ⊢
      simp only at hu ⊢
      rcases mem_akeys_adel.mp hu with ⟨hu, hne⟩
      exact mem_akeys_adel.mpr ⟨hs u hu, hne⟩
  | enableOp url day pv =>
    rcases enableBanner_state url day pv s with h | h | ⟨p, h⟩
    · simpa [applyOp, h] using hs
    · intro u hu
      rw [applyOp, h] at hu ⊢
      simpa using hs u hu
    · intro u hu
      rw [applyOp, h] at hu ⊢
      simp only at hu ⊢
      rcases mem_akeys_aset.mp hu with hu | rfl
      · exact mem_akeys_aset.mpr (Or.inl (hs u hu))
      · exact mem_akeys_aset.mpr (Or.inr rfl)
  | updateDayOp url day =>
    rcases updateDayBanner_state url day s with h | ⟨d0, hd0, h⟩
    · simpa [applyOp, h] using hs
    · intro u hu
      rw [applyOp, h] at hu ⊢
      simp only at hu ⊢
      rcases mem_akeys_aset.mp hu with hu | rfl
      · exact hs u hu
      · exact hs u (alookup_some_mem hd0)
  | updatePriorityOp url pv =>
    rcases updatePriorityBanner_state url pv s with h | ⟨p, d0, hd0, h⟩
    · simpa [applyOp, h] using hs
    · intro u hu
      rw [applyOp, h] at hu ⊢
      simp only at hu ⊢
      exact mem_akeys_aset.mpr (Or.inl (hs u hu))
  | deleteOp url m =>
    rcases deleteBanner_state url m s with h | h
    · simpa [applyOp, h] using hs
    · intro u hu
      rw [applyOp, h] at hu ⊢
      simp only at hu ⊢
      rcases mem_akeys_adel.mp hu with ⟨hu, hne⟩
      exact mem_akeys_adel.mpr ⟨hs u hu, hne⟩

theorem disjointInv_runOps {ops : List Op} {s : RegState}
    (hs : disjointInv s) (hok : okTrace s ops = true) :
    disjointInv (runOps s ops) := by
  induction ops generalizing s with
  | nil => exact hs
  | cons op t ih =>
    rw [okTrace, Bool.and_eq_true] at hok
    exact ih (disjointInv_applyOp hs hok.1) hok.2

theorem hashSubZ_runOps {ops : List Op} {s : RegState} (hs : hashSubZ s) :
    hashSubZ (runOps s ops) := by
  induction ops generalizing s with
  | nil => exact hs
  | cons op t ih => exact ih (hashSubZ_applyOp hs)

theorem disjointInv_empty : disjointInv emptyState := by
  intro u hu
  simp [emptyState, akeys] at hu

theorem hashSubZ_empty : hashSubZ emptyState := by
  intro u hu
  simp [emptyState, akeys] at hu

/-! ## Success paths and validation -/

theorem disableBanner_success {url : String} {s : RegState}
    (hu : url ≠ "") (hmem : url ∈ akeys s.activeDay) :
    disableBanner url s =
      (⟨200, "Banner desativado com sucesso."⟩,
       ⟨(adel s.activeDay url).2, (adel s.priorityZ url).2,
        sadd s.disabled url⟩) := by
  have hc : ¬((adel s.activeDay url).1 = 0 ∧ (adel s.priorityZ url).1 = 0) := by
    simp [adel, hmem]
  simp only [disableBanner, if_neg hu, if_neg hc]

theorem enableBanner_success {url : String} {day : Option String}
    {pv : PVal} {p : Int} {s : RegState} (hu : url ≠ "")
    (hday : normDay day ∈ validDays) (hp : parseWithDefault pv = some p)
    (hpos : ¬p < 0) (hdis : url ∈ s.disabled) :
    enableBanner url day pv s =
      (⟨200, "Banner reativado com sucesso."⟩,
       ⟨aset s.activeDay url (normDay day), aset s.priorityZ url p,
        (srem s.disabled url).2⟩) := by
  have hc : ¬(url = "" ∨ normDay day ∉ validDays ∨ p < 0) := by
    simp [hu, hday, hpos]
  have hr : ¬(srem s.disabled url).1 = 0 := by simp [srem, hdis]
  simp only [enableBanner, hp, if_neg hc, if_neg hr]

/-- The day/priority validation shared by `POST /api/banners` and
`PUT /api/banners/enable`: the normalised day must belong to the enum
and the priority must parse to a non-negative integer. -/
def validInput (day : Option String) (pv : PVal) : Bool :=
  decide (normDay day ∈ validDays) &&
    (match parseWithDefault pv with
     | some p => decide (0 ≤ p)
     | none => false)

theorem createBanner_invalid {day : Option String} {pv : PVal}
    {up : Option String} {s : RegState} (hv : validInput day pv = false) :
    (createBanner true day pv up s).1.status = 400 ∧
      (createBanner true day pv up s).2 = s := by
  by_cases hd : normDay day ∈ validDays
  · cases hp : parseWithDefault pv with
    | none => simp [createBanner, hp, hd]
    | some p =>
      have hneg : p < 0 := by
        simp only [validInput, hp, Bool.and_eq_false_iff] at hv
        rcases hv with hv | hv
        · simp [hd] at hv
        · simpa [Int.not_le] using hv
      simp [createBanner, hp, hd, hneg]
  · simp [createBanner, hd]

theorem createBanner_valid {day : Option String} {pv : PVal} {u : String}
    {s : RegState} (hv : validInput day pv = true) :
    ∃ p, parseWithDefault pv = some p ∧ 0 ≤ p ∧
      createBanner true day pv (some u) s =
        (⟨201, "Upload bem-sucedido e banner ativado!"⟩,
         ⟨aset s.activeDay u (normDay day), aset s.priorityZ u p,
          s.disabled⟩) := by
  simp only [validInput, Bool.and_eq_true, decide_eq_true_eq] at hv
  rcases hv with ⟨hd, hv⟩
  cases hp : parseWithDefault pv with
  | none => rw [hp] at hv; exact absurd hv (by simp)
  | some p =>
    rw [hp] at hv
    have hple : 0 ≤ p := by simpa using hv
    refine ⟨p, rfl, hple, ?_⟩
    have hneg : ¬p < 0 := by omega
    simp [createBanner, hp, hd, hneg]

theorem createBanner_upload_failed {day : Option String} {pv : PVal}
    {s : RegState} (hv : validInput day pv = true) :
    createBanner true day pv none s = (⟨500, "Falha ao fazer upload."⟩, s) := by
  simp only [validInput, Bool.and_eq_true, decide_eq_true_eq] at hv
  rcases hv with ⟨hd, hv⟩
  cases hp : parseWithDefault pv with
  | none => rw [hp] at hv; exact absurd hv (by simp)
  | some p =>
    rw [hp] at hv
    have hneg : ¬p < 0 := by
      have : (0 : Int) ≤ p := by simpa using hv
      omega
    simp [createBanner, hp, hd, hneg]

theorem enableBanner_invalid {url : String} {day : Option String}
    {pv : PVal} {s : RegState} (hv : validInput day pv = false) :
    (enableBanner url day pv s).1.status = 400 ∧
      (enableBanner url day pv s).2 = s := by
  by_cases hd : normDay day ∈ validDays
  · cases hp : parseWithDefault pv with
    | none => simp [enableBanner, hp]
    | some p =>
      have hneg : p < 0 := by
        simp only [validInput, hp, Bool.and_eq_false_iff] at hv
        rcases hv with hv | hv
        · simp [hd] at hv
        · simpa [Int.not_le] using hv
      have hc : url = "" ∨ normDay day ∉ validDays ∨ p < 0 :=
        Or.inr (Or.inr hneg)
      simp [enableBanner, hp, hc]
  · cases hp : parseWithDefault pv with
    | none => simp [enableBanner, hp]
    | some p =>
      have hc : url = "" ∨ normDay day ∉ validDays ∨ p < 0 :=
        Or.inr (Or.inl hd)
      simp [enableBanner, hp, hc]

theorem enableBanner_valid {url : String} {day : Option String} {pv : PVal}
    {s : RegState} (hu : url ≠ "") (hdis : url ∈ s.disabled)
    (hv : validInput day pv = true) :
    (enableBanner url day pv s).1.status = 200 := by
  simp only [validInput, Bool.and_eq_true, decide_eq_true_eq] at hv
  rcases hv with ⟨hd, hv⟩
  cases hp : parseWithDefault pv with
  | none => rw [hp] at hv; exact absurd hv (by simp)
  | some p =>
    rw [hp] at hv
    have hneg : ¬p < 0 := by
      have : (0 : Int) ≤ p := by simpa using hv
      omega
    rw [enableBanner_success hu hd hp hneg hdis]

/-! ## Characterisation of `DELETE` and of the id derivation -/

theorem deleteBanner_state_eq {url m : String} {s : RegState}
    (hu : url ≠ "") :
    (deleteBanner url m s).2 =
      ⟨(adel s.activeDay url).2, (adel s.priorityZ url).2,
       (srem s.disabled url).2⟩ := by
  simp only [deleteBanner, if_neg hu]
  repeat' split
  all_goals rfl

theorem heldSum_eq_zero_iff {url : String} {s : RegState} :
    (adel s.activeDay url).1 + (adel s.priorityZ url).1 +
        (srem s.disabled url).1 = 0 ↔
      ¬(url ∈ akeys s.activeDay ∨ url ∈ akeys s.priorityZ ∨
        url ∈ s.disabled) := by
  by_cases h1 : url ∈ akeys s.activeDay <;>
    by_cases h2 : url ∈ akeys s.priorityZ <;>
      by_cases h3 : url ∈ s.disabled <;>
        simp [adel, srem, h1, h2, h3]

theorem deleteBanner_not_held {url m : String} {s : RegState}
    (hu : url ≠ "")
    (hheld : ¬(url ∈ akeys s.activeDay ∨ url ∈ akeys s.priorityZ ∨
      url ∈ s.disabled)) :
    (deleteBanner url m s).1 =
      ⟨404, "Banner não encontrado nos registros do Redis."⟩ := by
  have hsum := heldSum_eq_zero_iff.mpr hheld
  simp only [deleteBanner, if_neg hu, if_pos hsum]

theorem deleteBanner_held_status {url m : String} {s : RegState}
    (hu : url ≠ "")
    (hheld : url ∈ akeys s.activeDay ∨ url ∈ akeys s.priorityZ ∨
      url ∈ s.disabled) :
    (deleteBanner url m s).1.status = 200 := by
  have hsum : ¬((adel s.activeDay url).1 + (adel s.priorityZ url).1 +
      (srem s.disabled url).1 = 0) := fun h => heldSum_eq_zero_iff.mp h hheld
  simp only [deleteBanner, if_neg hu, if_neg hsum]
  repeat' split
  all_goals rfl

theorem deleteBanner_extract_failed {url m : String} {s : RegState}
    (hu : url ≠ "")
    (hheld : url ∈ akeys s.activeDay ∨ url ∈ akeys s.priorityZ ∨
      url ∈ s.disabled)
    (hex : extractPublicIdFromUrl url = none) :
    deleteBanner url m s =
      (⟨200, "Banner removido do Redis, mas falhou ao extrair o ID para exclusão no Cloudinary."⟩,
       ⟨(adel s.activeDay url).2, (adel s.priorityZ url).2,
        (srem s.disabled url).2⟩) := by
  have hsum : ¬((adel s.activeDay url).1 + (adel s.priorityZ url).1 +
      (srem s.disabled url).1 = 0) := fun h => heldSum_eq_zero_iff.mp h hheld
  simp only [deleteBanner, if_neg hu, if_neg hsum, hex]

theorem extract_eq_some_iff {url r : String} :
    extractPublicIdFromUrl url = some r ↔
      2 ≤ (splitSlash url).length ∧
        (splitSlash url).getD ((splitSlash url).length - 2) "" =
          CLOUDINARY_FOLDER ∧
        r = CLOUDINARY_FOLDER ++ "/" ++
          stripExt ((splitSlash url).getLastD "") := by
  by_cases hlen : (splitSlash url).length < 2
  · have : ¬2 ≤ (splitSlash url).length := by omega
    simp [extractPublicIdFromUrl, hlen, this]
  · by_cases hfold : (splitSlash url).getD ((splitSlash url).length - 2) "" =
      CLOUDINARY_FOLDER
    · have h2 : 2 ≤ (splitSlash url).length := by omega
      simp only [extractPublicIdFromUrl]
      rw [if_neg hlen, if_neg (not_not_intro hfold), hfold]
      constructor
      · intro h
        exact ⟨h2, rfl, (Option.some.inj h).symm⟩
      · rintro ⟨_, _, rfl⟩
        rfl
    · simp only [extractPublicIdFromUrl]
      rw [if_neg hlen, if_pos hfold]
      constructor
      · intro h
        exact absurd h (by simp)
      · rintro ⟨_, hc, _⟩
        exact absurd hc hfold

theorem extract_eq_none_iff {url : String} :
    extractPublicIdFromUrl url = none ↔
      ¬(2 ≤ (splitSlash url).length ∧
        (splitSlash url).getD ((splitSlash url).length - 2) "" =
          CLOUDINARY_FOLDER) := by
  by_cases hlen : (splitSlash url).length < 2
  · have h2 : ¬2 ≤ (splitSlash url).length := by omega
    simp only [extractPublicIdFromUrl]
    rw [if_pos hlen]
    constructor
    · rintro _ ⟨hc, _⟩
      exact h2 hc
    · intro _
      rfl
  · by_cases hfold : (splitSlash url).getD ((splitSlash url).length - 2) "" =
      CLOUDINARY_FOLDER
    · simp only [extractPublicIdFromUrl]
      rw [if_neg hlen, if_neg (not_not_intro hfold)]
      constructor
      · intro h
        exact absurd h (by simp)
      · intro h
        exact absurd ⟨by omega, hfold⟩ h
    · simp only [extractPublicIdFromUrl]
      rw [if_neg hlen, if_pos hfold]
      constructor
      · rintro _ ⟨_, hc⟩
        exact hfold hc
      · intro _
        rfl

/-! ## Claims -/

/-- C1 (counterexample).  The disjointness of active and disabled
membership is not preserved by every operation sequence: `POST
/api/banners` never consults the disabled set, so when the Media Store
hands back a URL that is currently disabled (create `u`, disable `u`,
create `u` again) the URL ends up both as a field of the active hash
and as a member of the disabled set. -/
theorem C1_create_after_disable_breaks_disjointness :
    "u" ∈ akeys (runOps emptyState
      [.createOp true none .absent (some "u"), .disableOp "u",
       .createOp true none .absent (some "u")]).activeDay ∧
    "u" ∈ (runOps emptyState
      [.createOp true none .absent (some "u"), .disableOp "u",
       .createOp true none .absent (some "u")]).disabled := by
  constructor
  · unfold akeys
    decide
  · decide

/-- C1 (amended).  For every operation sequence from the empty registry
in which each create's Media-Store URL is not currently disabled (which
a fresh-URL Media Store guarantees), no URL is ever simultaneously a
field of the active hash and a member of the disabled set. -/
theorem C1_disjoint_of_fresh_creates (ops : List Op)
    (hok : okTrace emptyState ops = true) :
    disjointInv (runOps emptyState ops) :=
  disjointInv_runOps disjointInv_empty hok

/-- Witness for C1: a concrete admissible trace. -/
theorem C1_disjoint_of_fresh_creates_witness :
    okTrace emptyState
      [.createOp true none .absent (some "u"), .disableOp "u",
       .enableOp "u" (some "MON") (.int 4), .deleteOp "u" "ok"] = true ∧
    disjointInv (runOps emptyState
      [.createOp true none .absent (some "u"), .disableOp "u",
       .enableOp "u" (some "MON") (.int 4), .deleteOp "u" "ok"]) :=
  ⟨by decide, C1_disjoint_of_fresh_creates _ (by decide)⟩

/-- C2 (counterexample).  After create `u`, disable `u`, create `u`
(the Media Store returning an already-disabled URL), `GET /api/banners`
returns `u` even though `u` is a member of the disabled set. -/
theorem C2_returns_disabled_url :
    listActiveForToday "MON" (runOps emptyState
      [.createOp true none .absent (some "u"), .disableOp "u",
       .createOp true none .absent (some "u")]) = ["u"] ∧
    "u" ∈ (runOps emptyState
      [.createOp true none .absent (some "u"), .disableOp "u",
       .createOp true none .absent (some "u")]).disabled := by
  constructor
  · decide
  · decide

/-- C2 (amended).  Over every state reachable from the empty registry
by a trace whose creates use URLs not currently disabled, and for every
weekday code, `GET /api/banners` returns exactly the URLs stored in the
active hash with day `ALL` or today's code, and never returns a member
of the disabled set. -/
theorem C2_active_today_exact_of_fresh_creates (ops : List Op)
    (td u : String) (hok : okTrace emptyState ops = true)
    (htd : td ∈ weekdayCodes) :
    ((u ∈ listActiveForToday td (runOps emptyState ops)) ↔
      ∃ d, alookup (runOps emptyState ops).activeDay u = some d ∧
        (d = "ALL" ∨ d = td)) ∧
    (u ∈ listActiveForToday td (runOps emptyState ops) →
      u ∉ (runOps emptyState ops).disabled) :=
  ⟨mem_listActiveForToday_iff (hashSubZ_runOps hashSubZ_empty) htd,
   fun hm =>
    listActiveForToday_not_disabled (disjointInv_runOps disjointInv_empty hok)
      hm⟩

/-- Witness for C2: one create, queried on a Monday. -/
theorem C2_active_today_exact_witness :
    okTrace emptyState [.createOp true none .absent (some "u")] = true ∧
    "MON" ∈ weekdayCodes ∧
    ((("u" ∈ listActiveForToday "MON"
        (runOps emptyState [.createOp true none .absent (some "u")])) ↔
      ∃ d, alookup (runOps emptyState
          [.createOp true none .absent (some "u")]).activeDay "u" = some d ∧
        (d = "ALL" ∨ d = "MON")) ∧
     ("u" ∈ listActiveForToday "MON"
        (runOps emptyState [.createOp true none .absent (some "u")]) →
      "u" ∉ (runOps emptyState
        [.createOp true none .absent (some "u")]).disabled)) :=
  ⟨by decide, by decide,
   C2_active_today_exact_of_fresh_creates _ "MON" "u" (by decide) (by decide)⟩

/-- C3 (counterexample).  Two banners created `a` then `b` with the same
priority 5 are returned as `["b", "a"]` (the sorted set breaks score
ties in reverse lexicographic member order), not in insertion order
`["a", "b"]`. -/
theorem C3_equal_priority_not_insertion_order :
    listActiveForToday "MON" (runOps emptyState
      [.createOp true none (.int 5) (some "a"),
       .createOp true none (.int 5) (some "b")]) = ["b", "a"] ∧
    (["b", "a"] : List String) ≠ ["a", "b"] := by
  constructor
  · decide
  · decide

/-- C3 (amended).  The rows of `GET /api/banners` are sorted by
descending priority, and equal-priority rows are in descending
(reverse lexicographic) URL order — the tie order of the sorted set,
not insertion order; the returned URL list is their first projection. -/
theorem C3_sorted_desc_priority_rev_lex (td : String) (s : RegState) :
    List.Pairwise ZRel (listActiveTodayPairs td s) ∧
      listActiveForToday td s = (listActiveTodayPairs td s).map Prod.fst :=
  ⟨listActiveTodayPairs_sorted td s, rfl⟩

/-- C4 (confirmed).  Disabling an active banner and re-enabling it with
no day and no priority supplied leaves it active with the defaults
day `ALL` and priority `0` (the pre-disable attributes are not
restored). -/
theorem C4_enable_after_disable_restores_defaults (s : RegState)
    (u d : String) (hu : u ≠ "") (hd : alookup s.activeDay u = some d) :
    (enableBanner u none .absent (disableBanner u s).2).1 =
      ⟨200, "Banner reativado com sucesso."⟩ ∧
    alookup (enableBanner u none .absent
      (disableBanner u s).2).2.activeDay u = some "ALL" ∧
    alookup (enableBanner u none .absent
      (disableBanner u s).2).2.priorityZ u = some 0 := by
  have hmem := alookup_some_mem hd
  rw [disableBanner_success hu hmem]
  have hdis : u ∈ sadd s.disabled u := mem_sadd.mpr (Or.inr rfl)
  rw [@enableBanner_success u none .absent 0 _ hu (by decide) rfl
    (by decide) hdis]
  refine ⟨rfl, ?_, ?_⟩
  · exact alookup_aset_self _ _ _
  · exact alookup_aset_self _ _ _

/-- Witness for C4: a banner stored with day `MON` and priority 7. -/
theorem C4_enable_after_disable_witness :
    ("u" : String) ≠ "" ∧
    alookup (⟨[("u", "MON")], [("u", 7)], []⟩ : RegState).activeDay "u" =
      some "MON" ∧
    ((enableBanner "u" none .absent
        (disableBanner "u" ⟨[("u", "MON")], [("u", 7)], []⟩).2).1 =
      ⟨200, "Banner reativado com sucesso."⟩ ∧
     alookup (enableBanner "u" none .absent
        (disableBanner "u" ⟨[("u", "MON")], [("u", 7)], []⟩).2).2.activeDay
        "u" = some "ALL" ∧
     alookup (enableBanner "u" none .absent
        (disableBanner "u" ⟨[("u", "MON")], [("u", 7)], []⟩).2).2.priorityZ
        "u" = some 0) :=
  ⟨by decide, by decide,
   C4_enable_after_disable_restores_defaults _ "u" "MON" (by decide)
     (by decide)⟩

/-- C5 (confirmed).  For every non-empty URL, `DELETE /api/banners`
answers 404 exactly when the URL is held by none of the three registry
structures; otherwise it answers 200, and in every case the resulting
state has the URL removed from the hash, the sorted set and the
disabled set — independently of the Media Store outcome — so the URL
appears in neither `listAllActive` nor `listDisabled` afterward. -/
theorem C5_delete_notfound_iff_and_always_removes (s : RegState)
    (url m : String) (hu : url ≠ "") :
    (((deleteBanner url m s).1.status = 404) ↔
      ¬(url ∈ akeys s.activeDay ∨ url ∈ akeys s.priorityZ ∨
        url ∈ s.disabled)) ∧
    ((deleteBanner url m s).2 =
      ⟨(adel s.activeDay url).2, (adel s.priorityZ url).2,
       (srem s.disabled url).2⟩) ∧
    ((url ∈ akeys s.activeDay ∨ url ∈ akeys s.priorityZ ∨
        url ∈ s.disabled) →
      (deleteBanner url m s).1.status = 200 ∧
      url ∉ (listAllActive (deleteBanner url m s).2).map (fun b => b.1) ∧
      url ∉ listDisabled (deleteBanner url m s).2) := by
  refine ⟨⟨?_, ?_⟩, deleteBanner_state_eq hu, ?_⟩
  · intro h404 hheld
    rw [deleteBanner_held_status hu hheld] at h404
    exact absurd h404 (by decide)
  · intro hheld
    rw [deleteBanner_not_held hu hheld]
  · intro hheld
    refine ⟨deleteBanner_held_status hu hheld, ?_, ?_⟩
    · rw [deleteBanner_state_eq hu]
      intro hmem
      have := mem_map_fst_listAllActive.mp hmem
      simp only at this
      exact (mem_akeys_adel.mp this).2 rfl
    · rw [deleteBanner_state_eq hu]
      intro hmem
      unfold listDisabled at hmem
      simp only at hmem
      exact (mem_srem.mp hmem).2 rfl

/-- Witness for C5: deleting a held URL, with the Media Store
reporting an error string. -/
theorem C5_delete_witness :
    ("u" : String) ≠ "" ∧
    ("u" ∈ akeys (⟨[("u", "ALL")], [("u", 1)], ["v"]⟩ : RegState).activeDay ∨
      "u" ∈ akeys (⟨[("u", "ALL")], [("u", 1)], ["v"]⟩ : RegState).priorityZ ∨
      "u" ∈ (⟨[("u", "ALL")], [("u", 1)], ["v"]⟩ : RegState).disabled) ∧
    (deleteBanner "u" "oops" ⟨[("u", "ALL")], [("u", 1)], ["v"]⟩).1.status =
      200 ∧
    "u" ∉ (listAllActive
      (deleteBanner "u" "oops" ⟨[("u", "ALL")], [("u", 1)], ["v"]⟩).2).map
        (fun b => b.1) ∧
    "u" ∉ listDisabled
      (deleteBanner "u" "oops" ⟨[("u", "ALL")], [("u", 1)], ["v"]⟩).2 := by
  have hheld : "u" ∈ akeys
      (⟨[("u", "ALL")], [("u", 1)], ["v"]⟩ : RegState).activeDay ∨
      "u" ∈ akeys (⟨[("u", "ALL")], [("u", 1)], ["v"]⟩ : RegState).priorityZ ∨
      "u" ∈ (⟨[("u", "ALL")], [("u", 1)], ["v"]⟩ : RegState).disabled := by
    left
    unfold akeys
    decide
  have h := (C5_delete_notfound_iff_and_always_removes
    ⟨[("u", "ALL")], [("u", 1)], ["v"]⟩ "u" "oops" (by decide)).2.2 hheld
  exact ⟨by decide, hheld, h.1, h.2.1, h.2.2⟩

/-- C6 (counterexample).  The claim quantifies over every url, but for
the empty url — which is not currently active — `PUT
/api/banners/disable` answers 400 (missing URL), not 404 NotFound. -/
theorem C6_empty_url_gives_400 :
    disableBanner "" emptyState =
      (⟨400, "A URL do banner é obrigatória."⟩, emptyState) ∧
    (⟨400, "A URL do banner é obrigatória."⟩ : Resp).status ≠ 404 := by
  constructor
  · decide
  · decide

/-- C6 (amended).  For every non-empty url held by neither the active
hash nor the priority sorted set, disable fails with 404 and leaves the
state unchanged (with the more specific already-disabled message when
the url is in the disabled set); and disabling an active url twice
yields 404 with the already-disabled message the second time, leaving
the once-disabled state unchanged. -/
theorem C6_disable_notfound_and_repeat (s : RegState) (url : String)
    (hu : url ≠ "") :
    (url ∉ akeys s.activeDay → url ∉ akeys s.priorityZ →
      disableBanner url s =
        (⟨404, if url ∈ s.disabled then "Banner já está na lista de desativados."
           else "Banner não encontrado na lista de ativos."⟩, s)) ∧
    (url ∈ akeys s.activeDay →
      disableBanner url (disableBanner url s).2 =
        (⟨404, "Banner já está na lista de desativados."⟩,
         (disableBanner url s).2)) := by
  constructor
  · intro h1 h2
    have hc : (adel s.activeDay url).1 = 0 ∧ (adel s.priorityZ url).1 = 0 := by
      simp [adel, h1, h2]
    simp only [disableBanner, if_neg hu, if_pos hc]
    rw [adel_of_not_mem h1, adel_of_not_mem h2]
    by_cases hd : url ∈ s.disabled
    · simp only [if_pos hd]
    · simp only [if_neg hd]
  · intro hmem
    rw [disableBanner_success hu hmem]
    have h1 : url ∉ akeys (adel s.activeDay url).2 := fun h =>
      (mem_akeys_adel.mp h).2 rfl
    have h2 : url ∉ akeys (adel s.priorityZ url).2 := fun h =>
      (mem_akeys_adel.mp h).2 rfl
    have hdis : url ∈ sadd s.disabled url := mem_sadd.mpr (Or.inr rfl)
    have hc : (adel (adel s.activeDay url).2 url).1 = 0 ∧
        (adel (adel s.priorityZ url).2 url).1 = 0 := by
      rw [adel_fst, if_neg h1, adel_fst, if_neg h2]
      exact ⟨rfl, rfl⟩
    simp only [disableBanner, if_neg hu, if_pos hc, if_pos hdis]
    rw [adel_of_not_mem h1, adel_of_not_mem h2]

/-- Witness for C6: an unknown url answers 404 with state unchanged,
and a second disable of a just-disabled banner answers 404. -/
theorem C6_disable_notfound_witness :
    ("v" : String) ≠ "" ∧
    disableBanner "v" (⟨[("u", "ALL")], [("u", 0)], []⟩ : RegState) =
      (⟨404, if "v" ∈ (⟨[("u", "ALL")], [("u", 0)], []⟩ : RegState).disabled
          then "Banner já está na lista de desativados."
          else "Banner não encontrado na lista de ativos."⟩,
       ⟨[("u", "ALL")], [("u", 0)], []⟩) ∧
    disableBanner "u"
        (disableBanner "u" (⟨[("u", "ALL")], [("u", 0)], []⟩ : RegState)).2 =
      (⟨404, "Banner já está na lista de desativados."⟩,
       (disableBanner "u" (⟨[("u", "ALL")], [("u", 0)], []⟩ : RegState)).2) :=
  ⟨by decide,
   (C6_disable_notfound_and_repeat ⟨[("u", "ALL")], [("u", 0)], []⟩ "v"
      (by decide)).1 (by unfold akeys; decide) (by unfold akeys; decide),
   (C6_disable_notfound_and_repeat ⟨[("u", "ALL")], [("u", 0)], []⟩ "u"
      (by decide)).2 (by unfold akeys; decide)⟩

/-- C7 (counterexample).  A supplied day `"mon"` is not a member of the
enum `{ALL, MON, .., SUN}`, yet create accepts it (201) after
upper-casing it to `MON`; so create does not reject every supplied day
outside the enum. -/
theorem C7_lowercase_day_accepted :
    createBanner true (some "mon") .absent (some "u") emptyState =
      (⟨201, "Upload bem-sucedido e banner ativado!"⟩,
       ⟨[("u", "MON")], [("u", 0)], []⟩) ∧
    "mon" ∉ validDays := by
  constructor
  · decide
  · decide

/-- C7 (amended).  Create rejects with 400 (leaving the state
unchanged) exactly the requests whose upper-cased day (empty/missing
defaulting to `ALL`) is outside the enum or whose priority is `NaN` or
negative, and accepts the rest (201 when the upload succeeds); enable
applies the same day/priority validation (400 on invalid input with
state unchanged, 200 on valid input for a disabled url). -/
theorem C7_day_priority_validation (day : Option String) (pv : PVal)
    (up : Option String) (u : String) (s : RegState) :
    (validInput day pv = false →
      (createBanner true day pv up s).1.status = 400 ∧
        (createBanner true day pv up s).2 = s) ∧
    (validInput day pv = true →
      (createBanner true day pv (some u) s).1.status = 201) ∧
    (validInput day pv = false →
      (enableBanner u day pv s).1.status = 400 ∧
        (enableBanner u day pv s).2 = s) ∧
    (u ≠ "" → u ∈ s.disabled → validInput day pv = true →
      (enableBanner u day pv s).1.status = 200) := by
  refine ⟨fun hv => createBanner_invalid hv, fun hv => ?_,
    fun hv => enableBanner_invalid hv,
    fun hu hdis hv => enableBanner_valid hu hdis hv⟩
  rcases @createBanner_valid day pv u s hv with ⟨p, _, _, h⟩
  rw [h]

/-- Witness for C7: an invalid day is rejected by create and enable, a
valid lower-case day and non-negative priority are accepted by create,
and enable accepts the defaults for a disabled url. -/
theorem C7_day_priority_validation_witness :
    validInput (some "xx") .absent = false ∧
    (createBanner true (some "xx") .absent (some "u") emptyState).1.status =
      400 ∧
    (enableBanner "u" (some "xx") .absent
      (⟨[], [], ["u"]⟩ : RegState)).1.status = 400 ∧
    validInput (some "tue") (.int 3) = true ∧
    (createBanner true (some "tue") (.int 3) (some "u")
      emptyState).1.status = 201 ∧
    (enableBanner "u" (some "tue") (.int 3)
      (⟨[], [], ["u"]⟩ : RegState)).1.status = 200 :=
  ⟨by decide,
   ((C7_day_priority_validation (some "xx") .absent (some "u") "u"
      emptyState).1 (by decide)).1,
   ((C7_day_priority_validation (some "xx") .absent none "u"
      ⟨[], [], ["u"]⟩).2.2.1 (by decide)).1,
   by decide,
   (C7_day_priority_validation (some "tue") (.int 3) (some "u") "u"
      emptyState).2.1 (by decide),
   (C7_day_priority_validation (some "tue") (.int 3) none "u"
      ⟨[], [], ["u"]⟩).2.2.2 (by decide) (by decide) (by decide)⟩

/-- C8 (confirmed).  When the inputs pass validation and the Media
Store upload fails, create answers 500 and the registry state is
returned unchanged — no active-hash entry and no priority entry is
written. -/
theorem C8_upload_failure_no_partial_state (s : RegState)
    (day : Option String) (pv : PVal) (hv : validInput day pv = true) :
    createBanner true day pv none s = (⟨500, "Falha ao fazer upload."⟩, s) :=
  createBanner_upload_failed hv

/-- Witness for C8: a failing upload on a non-empty registry. -/
theorem C8_upload_failure_witness :
    validInput (some "FRI") (.int 9) = true ∧
    createBanner true (some "FRI") (.int 9) none
        (⟨[("a", "ALL")], [("a", 2)], []⟩ : RegState) =
      (⟨500, "Falha ao fazer upload."⟩, ⟨[("a", "ALL")], [("a", 2)], []⟩) :=
  ⟨by decide,
   C8_upload_failure_no_partial_state ⟨[("a", "ALL")], [("a", 2)], []⟩
     (some "FRI") (.int 9) (by decide)⟩

/-- C9 (confirmed).  The id derivation splits the url on `/` and
succeeds — returning the folder, a slash, and the last segment cut at
its last dot — exactly when there are at least two segments and the
second-to-last one equals `banners_folder`; it returns `null` for every
other shape, and in that case delete (on a held url) answers 200 with
the derivation-failure warning without consulting the Media Store (the
outcome argument is irrelevant). -/
theorem C9_extract_public_id (url r m : String) (s : RegState) :
    (extractPublicIdFromUrl url = some r ↔
      2 ≤ (splitSlash url).length ∧
        (splitSlash url).getD ((splitSlash url).length - 2) "" =
          CLOUDINARY_FOLDER ∧
        r = CLOUDINARY_FOLDER ++ "/" ++
          stripExt ((splitSlash url).getLastD "")) ∧
    (extractPublicIdFromUrl url = none ↔
      ¬(2 ≤ (splitSlash url).length ∧
        (splitSlash url).getD ((splitSlash url).length - 2) "" =
          CLOUDINARY_FOLDER)) ∧
    (url ≠ "" →
      (url ∈ akeys s.activeDay ∨ url ∈ akeys s.priorityZ ∨
        url ∈ s.disabled) →
      extractPublicIdFromUrl url = none →
      (deleteBanner url m s).1 =
        ⟨200, "Banner removido do Redis, mas falhou ao extrair o ID para exclusão no Cloudinary."⟩ ∧
      ∀ m2, deleteBanner url m2 s = deleteBanner url m s) := by
  refine ⟨extract_eq_some_iff, extract_eq_none_iff, fun hu hheld hex => ⟨?_, ?_⟩⟩
  · rw [deleteBanner_extract_failed hu hheld hex]
  · intro m2
    rw [deleteBanner_extract_failed hu hheld hex,
      deleteBanner_extract_failed hu hheld hex]

/-- Witness for C9: a well-formed Cloudinary URL derives its public id;
a malformed one (no folder segment) makes delete answer the 200
warning whatever the Media Store would have said. -/
theorem C9_extract_public_id_witness :
    extractPublicIdFromUrl "https://res.cloudinary.com/dv/image/upload/v1/banners_folder/pic.png" =
      some "banners_folder/pic" ∧
    extractPublicIdFromUrl "x" = none ∧
    (deleteBanner "x" "zz" (⟨[], [("x", 1)], []⟩ : RegState)).1 =
      ⟨200, "Banner removido do Redis, mas falhou ao extrair o ID para exclusão no Cloudinary."⟩ ∧
    deleteBanner "x" "ok" (⟨[], [("x", 1)], []⟩ : RegState) =
      deleteBanner "x" "zz" (⟨[], [("x", 1)], []⟩ : RegState) := by
  have h9 := C9_extract_public_id
    "https://res.cloudinary.com/dv/image/upload/v1/banners_folder/pic.png"
    "banners_folder/pic" "zz" (⟨[], [("x", 1)], []⟩ : RegState)
  have hsome := h9.1.mpr (by refine ⟨?_, ?_, ?_⟩ <;> decide)
  have h9x := C9_extract_public_id "x" "banners_folder/pic" "zz"
    (⟨[], [("x", 1)], []⟩ : RegState)
  have hheld : ("x" : String) ∈ akeys
      (⟨[], [("x", 1)], []⟩ : RegState).activeDay ∨
      "x" ∈ akeys (⟨[], [("x", 1)], []⟩ : RegState).priorityZ ∨
      "x" ∈ (⟨[], [("x", 1)], []⟩ : RegState).disabled := by
    right
    left
    unfold akeys
    decide
  have hrest := h9x.2.2 (by decide) hheld (by decide)
  exact ⟨hsome, by decide, hrest.1, hrest.2 "ok"⟩

/-- C10 (confirmed).  A url present only in the priority sorted set —
in neither the active hash nor the disabled set — is treated by delete
as found: the removal count over all three structures is positive, so
delete answers 200 (here via the derivation-warning branch), not 404. -/
theorem C10_orphan_priority_member_deletable :
    "x" ∉ akeys (⟨[], [("x", 5)], []⟩ : RegState).activeDay ∧
    "x" ∈ akeys (⟨[], [("x", 5)], []⟩ : RegState).priorityZ ∧
    "x" ∉ (⟨[], [("x", 5)], []⟩ : RegState).disabled ∧
    (deleteBanner "x" "ok" (⟨[], [("x", 5)], []⟩ : RegState)).1.status =
      200 ∧
    (deleteBanner "x" "ok" (⟨[], [("x", 5)], []⟩ : RegState)).1.status ≠
      404 := by
  refine ⟨?_, ?_, ?_, ?_, ?_⟩ <;> first
    | (unfold akeys; decide)
    | decide

end Banner
